import Mathlib

/-!
Shallow embedding of the MongoDB-Security form-submission service
(demo/in-memory server plus the MongoDB variant's health handler).

The embedding follows the JavaScript source: the express-validator chains
(`validateInput`), the `POST /api/submit` handler, the `GET /api/submissions`
handler (map to a five-field projection, stable sort by `createdAt`
descending, `slice(0, 50)`), and the two `GET /api/health` handlers.

Strings are Lean `String`s; timestamps are `Nat` (milliseconds since epoch,
as produced by `new Date()`); JavaScript objects appearing in responses are
either fixed-shape structures or explicit key/value lists where the set of
keys matters.
-/

namespace FormApp

/-! ### JavaScript string primitives -/

/-- The character class matched by JavaScript's `\s` (also the set removed by
`String.prototype.trim`): tab, LF, VT, FF, CR, space, NBSP, and the Unicode
space separators, line/paragraph separators and BOM. -/
def isJsWhitespace (c : Char) : Bool :=
  decide (c.toNat = 9 ∨ c.toNat = 10 ∨ c.toNat = 11 ∨ c.toNat = 12 ∨
    c.toNat = 13 ∨ c.toNat = 32 ∨ c.toNat = 160 ∨ c.toNat = 5760 ∨
    (8192 ≤ c.toNat ∧ c.toNat ≤ 8202) ∨ c.toNat = 8232 ∨ c.toNat = 8233 ∨
    c.toNat = 8239 ∨ c.toNat = 8287 ∨ c.toNat = 12288 ∨ c.toNat = 65279)

/-- `String.prototype.trim`: drop the JS whitespace characters from both ends. -/
def jsTrim (s : String) : String :=
  String.mk (((s.data.dropWhile isJsWhitespace).reverse.dropWhile
    isJsWhitespace).reverse)

/-- ASCII letter, the `[a-zA-Z]` part of the name pattern. -/
def isAsciiLetter (c : Char) : Bool :=
  decide ((65 ≤ c.toNat ∧ c.toNat ≤ 90) ∨ (97 ≤ c.toNat ∧ c.toNat ≤ 122))

/-- ASCII digit `[0-9]`. -/
def isAsciiDigit (c : Char) : Bool :=
  decide (48 ≤ c.toNat ∧ c.toNat ≤ 57)

/-- ASCII uppercase letter, lowered by `toLowerCase`. -/
def isUpperAscii (c : Char) : Bool :=
  decide (65 ≤ c.toNat ∧ c.toNat ≤ 90)

/-- JavaScript `toLowerCase` on one character, restricted to ASCII (every
character an accepted email can contain in this model is ASCII). -/
def jsLowerChar (c : Char) : Char :=
  if isUpperAscii c then Char.ofNat (c.toNat + 32) else c

/-- The test of the name pattern `/^[a-zA-Z\s]+$/` from the validation chain. -/
def nameMatches (s : String) : Bool :=
  !s.data.isEmpty && s.data.all (fun c => isAsciiLetter c || isJsWhitespace c)

/-! ### A splitter mirroring JavaScript's `String.prototype.split(sep)`,
used by the email validator model. -/

/-- Split a character list at every occurrence of `sep`; the separators are
not part of any returned piece.  `splitOnChar sep [] = [[]]`, as in JS. -/
def splitOnChar (sep : Char) : List Char → List (List Char)
  | [] => [[]]
  | c :: cs =>
    let r := splitOnChar sep cs
    if c = sep then [] :: r
    else
      match r with
      | [] => [[c]]
      | p :: ps => (c :: p) :: ps

/-! ### Email validation (model of the validator.js library calls) -/

/-- Characters allowed in one dot-separated atom of a non-quoted email local
part by validator.js with its default `allow_utf8_local_part: true`
(`emailUserUtf8Part`, `/^[a-z\d!#\$%&'\*\+\-\/=\?\^_`{\|}~¡-￿]+$/i`):
ASCII letters and digits, the listed punctuation (named by character code),
and the whole `U+00A1`–`U+FFFF` range — which includes the Unicode
whitespace characters, so an accepted local part may carry whitespace.
(JavaScript regexes see UTF-16 units; astral code points, surrogate pairs
in JS, are not modelled.) -/
def isLocalAtomChar (c : Char) : Bool :=
  isAsciiLetter c || isAsciiDigit c ||
  decide (c.toNat = 33 ∨ c.toNat = 35 ∨ c.toNat = 36 ∨ c.toNat = 37 ∨
    c.toNat = 38 ∨ c.toNat = 39 ∨ c.toNat = 42 ∨ c.toNat = 43 ∨
    c.toNat = 45 ∨ c.toNat = 47 ∨ c.toNat = 61 ∨ c.toNat = 63 ∨
    c.toNat = 94 ∨ c.toNat = 95 ∨ c.toNat = 96 ∨ c.toNat = 123 ∨
    c.toNat = 124 ∨ c.toNat = 125 ∨ c.toNat = 126) ||
  decide (161 ≤ c.toNat ∧ c.toNat ≤ 65535)

/-- Characters allowed in a domain label: alphanumeric or hyphen (code 45). -/
def isDomainChar (c : Char) : Bool :=
  isAsciiLetter c || isAsciiDigit c || decide (c.toNat = 45)

/-- One label of a fully qualified domain name: non-empty, at most 63
characters, alphanumeric/hyphen, no leading or trailing hyphen. -/
def isDomainLabel (p : List Char) : Bool :=
  !p.isEmpty && decide (p.length ≤ 63) && p.all isDomainChar &&
  !(p.head? = some (Char.ofNat 45)) && !(p.getLast? = some (Char.ofNat 45))

/-- validator.js `isFQDN` with default options (`require_tld: true`),
simplified to ASCII: at least two dot-separated labels, each well formed,
and the top-level label all-alphabetic of length at least 2. -/
def isFQDNChars (d : List Char) : Bool :=
  let parts := splitOnChar (Char.ofNat 46) d
  decide (2 ≤ parts.length) && parts.all isDomainLabel &&
  (match parts.getLast? with
   | some tld => decide (2 ≤ tld.length) && tld.all isAsciiLetter
   | none => false)

/-- Model of validator.js `isEmail` with default options, as invoked by the
`body('email').isEmail()` chain item: the whole address capped at 254
characters (`ignore_max_length: false`), a single `@` separating a
non-empty dot-atom local part (at most 64 characters, UTF-8 atoms per
`isLocalAtomChar`) from an FQDN domain (at most 254 characters).  The
library splits at the last `@` and joins the rest back into the user part,
but a user part containing `@` always fails the atom pattern (`@` is code
64, outside every allowed range), so requiring exactly one `@` is
extensionally the same.  Quoted local parts, IP-literal domains, display
names and internationalized domain labels are not modelled. -/
def jsIsEmail (s : String) : Bool :=
  decide (s.length ≤ 254) &&
  match splitOnChar (Char.ofNat 64) s.data with
  | [localPart, domain] =>
    decide (localPart.length ≤ 64) && decide (domain.length ≤ 254) &&
    !localPart.isEmpty && !domain.isEmpty &&
    (splitOnChar (Char.ofNat 46) localPart).all
      (fun p => !p.isEmpty && p.all isLocalAtomChar) &&
    isFQDNChars domain
  | _ => false

/-- Lowercase a character list with JavaScript `toLowerCase`, modelled on
ASCII (non-ASCII characters pass through unchanged; they are never
uppercase ASCII, which is all the theorems below assert about case). -/
def lowerChars (l : List Char) : List Char := l.map jsLowerChar

/-- The two domains of validator.js's gmail branch. -/
def gmailDomains : List String := ["gmail.com", "googlemail.com"]

/-- validator.js `icloud_domains`. -/
def icloudDomains : List String := ["icloud.com", "me.com"]

/-- validator.js `outlookdotcom_domains`.  The list varies slightly across
library versions (the repository pins no validator.js version); no theorem
depends on its exact membership. -/
def outlookDomains : List String :=
  ["hotmail.at", "hotmail.be", "hotmail.ca", "hotmail.cl", "hotmail.co.il",
   "hotmail.co.nz", "hotmail.co.th", "hotmail.co.uk", "hotmail.com",
   "hotmail.com.ar", "hotmail.com.au", "hotmail.com.br", "hotmail.com.gr",
   "hotmail.com.mx", "hotmail.com.pe", "hotmail.com.tr", "hotmail.com.vn",
   "hotmail.cz", "hotmail.de", "hotmail.dk", "hotmail.es", "hotmail.fr",
   "hotmail.hu", "hotmail.id", "hotmail.ie", "hotmail.in", "hotmail.it",
   "hotmail.jp", "hotmail.kr", "hotmail.lv", "hotmail.my", "hotmail.ph",
   "hotmail.pt", "hotmail.sa", "hotmail.sg", "hotmail.sk", "live.be",
   "live.co.uk", "live.com", "live.com.ar", "live.com.mx", "live.de",
   "live.es", "live.eu", "live.fr", "live.it", "live.nl", "msn.com",
   "outlook.at", "outlook.be", "outlook.cl", "outlook.co.il",
   "outlook.co.nz", "outlook.co.th", "outlook.com", "outlook.com.ar",
   "outlook.com.au", "outlook.com.br", "outlook.com.gr", "outlook.com.pe",
   "outlook.com.tr", "outlook.com.vn", "outlook.cz", "outlook.de",
   "outlook.dk", "outlook.es", "outlook.fr", "outlook.hu", "outlook.id",
   "outlook.ie", "outlook.in", "outlook.it", "outlook.jp", "outlook.kr",
   "outlook.lv", "outlook.my", "outlook.ph", "outlook.pt", "outlook.sa",
   "outlook.sg", "outlook.sk", "passport.com"]

/-- validator.js `yahoo_domains`. -/
def yahooDomains : List String :=
  ["rocketmail.com", "yahoo.ca", "yahoo.co.uk", "yahoo.com", "yahoo.de",
   "yahoo.fr", "yahoo.in", "yahoo.it", "ymail.com"]

/-- The gmail-branch dot removal,
`replace(/\.+/g, m => m.length > 1 ? chr46 : empty)`: a maximal run of one
dot is deleted, a longer run is collapsed to a single dot.  `run` counts
the dots read so far. -/
def gmailDotsAux (run : Nat) : List Char → List Char
  | [] => if 2 ≤ run then [Char.ofNat 46] else []
  | c :: cs =>
    if c = Char.ofNat 46 then gmailDotsAux (run + 1) cs
    else
      (if 2 ≤ run then [Char.ofNat 46] else []) ++ c :: gmailDotsAux 0 cs

def gmailDots (l : List Char) : List Char := gmailDotsAux 0 l

/-- Model of validator.js `normalizeEmail` with default options, as invoked
by the `.normalizeEmail()` chain item.  The input splits at the last `@`
into user and domain; the domain is lowercased.  Provider branches (all
enabled by default): gmail/googlemail addresses lose their `+` subaddress
and have dot runs removed, the result is lowercased and the domain becomes
`gmail.com` — and if the local part has normalized to empty the library
returns the boolean `false`, modelled as `none`; icloud and outlook
addresses lose their `+` subaddress; yahoo addresses lose their final
`-`-separated component when one exists; every branch lowercases the user
part (`all_lowercase: true`).  Lowercasing is ASCII (see `lowerChars`). -/
def normalizeEmail (s : String) : Option String :=
  let parts := splitOnChar (Char.ofNat 64) s.data
  let domain := (parts.getLast?).getD []
  let user := List.intercalate [Char.ofNat 64] parts.dropLast
  let domainLc := lowerChars domain
  if gmailDomains.contains (String.mk domainLc) then
    let u1 := user.takeWhile (fun c => !(c = Char.ofNat 43))
    let u2 := gmailDots u1
    if u2.isEmpty then none
    else some (String.mk (lowerChars u2 ++ Char.ofNat 64 :: "gmail.com".data))
  else if icloudDomains.contains (String.mk domainLc) then
    let u1 := user.takeWhile (fun c => !(c = Char.ofNat 43))
    some (String.mk (lowerChars u1 ++ Char.ofNat 64 :: domainLc))
  else if outlookDomains.contains (String.mk domainLc) then
    let u1 := user.takeWhile (fun c => !(c = Char.ofNat 43))
    some (String.mk (lowerChars u1 ++ Char.ofNat 64 :: domainLc))
  else if yahooDomains.contains (String.mk domainLc) then
    let comps := splitOnChar (Char.ofNat 45) user
    let u1 := if 1 < comps.length then
        List.intercalate [Char.ofNat 45] comps.dropLast
      else user
    some (String.mk (lowerChars u1 ++ Char.ofNat 64 :: domainLc))
  else
    some (String.mk (lowerChars user ++ Char.ofNat 64 :: domainLc))

/-- express-validator hands a sanitizer's output to the next validator after
coercing it with `String(value)`: the boolean `false` that `normalizeEmail`
can produce becomes the five-character string `"false"`. -/
def sanitizedEmailToString : Option String → String
  | some s => s
  | none => "false"

/-! ### The Validator (`validateInput` in the source) -/

/-- One entry of `errors.array()`: the offending field and its message. -/
structure FieldError where
  path : String
  msg : String
deriving DecidableEq

/-- A single validation-chain item: emit one field error when `b` is true. -/
def errIf (b : Bool) (f m : String) : List FieldError :=
  if b then [⟨f, m⟩] else []

/-- The `body('name')` chain: `notEmpty`, `isLength({min:2,max:100})`,
`matches(/^[a-zA-Z\s]+$/)`.  There is no sanitizer in this chain, so the
value is checked, and later stored, untrimmed. -/
def nameErrors (name : String) : List FieldError :=
  errIf (decide (name.length = 0)) "name" "Name is required" ++
  errIf (decide (¬ (2 ≤ name.length ∧ name.length ≤ 100))) "name"
    "Name must be between 2 and 100 characters" ++
  errIf (!nameMatches name) "name" "Name can only contain letters and spaces"

/-- The `body('email')` chain: `isEmail` on the raw value, then the
`normalizeEmail` sanitizer, then `isLength({max:255})` on the sanitized
value (coerced to a string when the sanitizer produced `false`).  Returns
the errors and the sanitized value written back to the body. -/
def emailErrors (email : String) : List FieldError × Option String :=
  (errIf (!jsIsEmail email) "email" "Please enter a valid email address" ++
   errIf (decide (255 < (sanitizedEmailToString (normalizeEmail email)).length))
     "email" "Email must be less than 255 characters",
   normalizeEmail email)

/-- The `body('message')` chain: `notEmpty`, `isLength({min:10,max:1000})`,
then the `trim()` sanitizer.  Note that `trim()` comes last, so the length
check sees the untrimmed value while the trimmed value is stored. -/
def messageErrors (message : String) : List FieldError × String :=
  (errIf (decide (message.length = 0)) "message" "Message is required" ++
   errIf (decide (¬ (10 ≤ message.length ∧ message.length ≤ 1000))) "message"
     "Message must be between 10 and 1000 characters",
   jsTrim message)

/-- A request body `{name, email, message}`; an absent field is the empty
string, matching express-validator's coercion of missing values. -/
structure Payload where
  name : String
  email : String
  message : String
deriving DecidableEq

/-- The request body after the sanitizers have run: the email slot holds
either the normalized string or the boolean `false` (`none`) that
`normalizeEmail` can produce. -/
structure SanitizedBody where
  name : String
  email : Option String
  message : String
deriving DecidableEq

/-- The full `validateInput` middleware: the ordered error list gathered by
`validationResult`, and the body after the sanitizers have run. -/
def validateInput (p : Payload) : List FieldError × SanitizedBody :=
  ((nameErrors p.name) ++ (emailErrors p.email).1 ++ (messageErrors p.message).1,
   { name := p.name,
     email := (emailErrors p.email).2,
     message := (messageErrors p.message).2 })

/-! ### The Store and the handlers (demo / in-memory server) -/

/-- One element of the in-memory `submissions` array, as built by the
`POST /api/submit` handler.  The email slot is the sanitized body value:
usually a string, but the boolean `false` (`none`) when the sanitizer
produced it. -/
structure SubmissionRecord where
  _id : String
  name : String
  email : Option String
  message : String
  ipAddress : String
  createdAt : Nat
deriving DecidableEq

/-- The server's mutable state: the `submissions` array and
`submissionCounter`. -/
structure ServerState where
  submissions : List SubmissionRecord
  submissionCounter : Nat
deriving DecidableEq

/-- The state at process start: `submissions = []`, `submissionCounter = 1`. -/
def initialState : ServerState := ⟨[], 1⟩

/-- The id assigned at append time: the template literal
`demo-${submissionCounter}`. -/
def demoId (k : Nat) : String := "demo-" ++ Nat.repr k

/-- The JSON body sent by `POST /api/submit` (success and validation-failure
shapes share this record; unused fields are `[]`/`none`). -/
structure SubmitResponse where
  status : Nat
  success : Bool
  message : String
  errors : List FieldError
  id : Option String
deriving DecidableEq

/-- The `POST /api/submit` handler: run `validateInput`; on any error answer
400 with the error array and leave the state untouched; otherwise build the
record from the sanitized body, `req.ip` (with the `'unknown'` fallback) and
`new Date()` (the `now` argument), push it, bump the counter, and answer 201
with the assigned id. -/
def postSubmit (st : ServerState) (p : Payload) (reqIp : Option String)
    (now : Nat) : ServerState × SubmitResponse :=
  let errs := (validateInput p).1
  let sanitized := (validateInput p).2
  if errs.isEmpty then
    let userData : SubmissionRecord :=
      { _id := demoId st.submissionCounter,
        name := sanitized.name,
        email := sanitized.email,
        message := sanitized.message,
        ipAddress := reqIp.getD "unknown",
        createdAt := now }
    ({ submissions := st.submissions ++ [userData],
       submissionCounter := st.submissionCounter + 1 },
     { status := 201, success := true, message := "Data saved successfully",
       errors := [], id := some userData._id })
  else
    (st, { status := 400, success := false, message := "Validation failed",
           errors := errs, id := none })

/-- The object literal built by the `.map` in the `GET /api/submissions`
handler: exactly the five projected properties. -/
structure SubItem where
  _id : String
  name : String
  email : Option String
  message : String
  createdAt : Nat
deriving DecidableEq

/-- The projection `s => ({_id, name, email, message, createdAt})`. -/
def toSubItem (s : SubmissionRecord) : SubItem :=
  ⟨s._id, s.name, s.email, s.message, s.createdAt⟩

/-- The comparator `(a, b) => new Date(b.createdAt) - new Date(a.createdAt)`
as the `le` relation of a stable sort: `a` may stay before `b` exactly when
the comparator is non-positive, i.e. `b.createdAt ≤ a.createdAt`.
(`Array.prototype.sort` is stable, so ties keep their original order.) -/
def subCmp (a b : SubItem) : Bool := decide (b.createdAt ≤ a.createdAt)

/-- The JSON body sent by `GET /api/submissions` on success. -/
structure ListResponse where
  status : Nat
  success : Bool
  data : List SubItem
deriving DecidableEq

/-- The `GET /api/submissions` handler: map the store to fresh five-field
objects, sort that fresh array by `createdAt` descending (stable), and
`slice(0, 50)`.  The store itself is returned unchanged: the sort mutates
only the array created by `.map`. -/
def getSubmissions (st : ServerState) : ServerState × ListResponse :=
  let recent := ((st.submissions.map toSubItem).mergeSort subCmp).take 50
  (st, { status := 200, success := true, data := recent })

/-! ### JSON serialization of response objects, where the set of keys of an
object matters (redaction claims). -/

/-- A JSON value as far as these responses need: strings, numbers and
booleans. -/
inductive JValue where
  | str : String → JValue
  | num : Nat → JValue
  | bool : Bool → JValue
deriving DecidableEq

/-- Serializing the stored email slot: the string, or the boolean `false`
the sanitizer can produce. -/
def emailJson : Option String → JValue
  | some s => JValue.str s
  | none => JValue.bool false

/-- Serializing one listed object: an object with exactly the five
properties written by the projection, in insertion order. -/
def subItemJson (it : SubItem) : List (String × JValue) :=
  [("_id", JValue.str it._id), ("name", JValue.str it.name),
   ("email", emailJson it.email), ("message", JValue.str it.message),
   ("createdAt", JValue.num it.createdAt)]

/-- The serialized `data` array of a `GET /api/submissions` response. -/
def responseJsonData (r : ListResponse) : List (List (String × JValue)) :=
  r.data.map subItemJson

/-- The demo-mode `GET /api/health` handler: status 200 (the `res.json`
default) and the literal body `{status, timestamp, database,
submissions_count}` with `database: 'demo-mode (in-memory)'`. -/
def healthHandler (st : ServerState) (nowIso : String) :
    Nat × List (String × JValue) :=
  (200,
   [("status", JValue.str "healthy"),
    ("timestamp", JValue.str nowIso),
    ("database", JValue.str "demo-mode (in-memory)"),
    ("submissions_count", JValue.num st.submissions.length)])

/-- The MongoDB variant's `GET /api/health` handler: status 200 and the body
`{status, timestamp, database}` where `database` is `'connected'` exactly
when `mongoose.connection.readyState === 1`.  It has no count field. -/
def mongoHealthHandler (readyState : Nat) (nowIso : String) :
    Nat × List (String × JValue) :=
  (200,
   [("status", JValue.str "healthy"),
    ("timestamp", JValue.str nowIso),
    ("database",
     JValue.str (if readyState = 1 then "connected" else "disconnected"))])

/-! ### Helper lemmas: the validator -/

theorem toNat_ofNat_of_lt {n : Nat} (h : n < 55296) : (Char.ofNat n).toNat = n := by
  simp [Char.ofNat, Char.toNat, h, Nat.isValidChar, Char.ofNatAux,
    UInt32.toNat, BitVec.toNat_ofNatLt]

theorem errIf_eq_nil {b : Bool} {f m : String} : errIf b f m = [] ↔ b = false := by
  cases b <;> simp [errIf]

theorem path_of_mem_errIf {b : Bool} {f m : String} {e : FieldError}
    (h : e ∈ errIf b f m) : e.path = f := by
  cases b <;> simp [errIf] at h
  rw [h]

theorem errIf_true_ne_nil {f m : String} : errIf true f m ≠ [] := by
  simp [errIf]

theorem nameErrors_eq_nil_iff (name : String) :
    nameErrors name = [] ↔
      2 ≤ name.length ∧ name.length ≤ 100 ∧ nameMatches name = true := by
  simp only [nameErrors, List.append_eq_nil, errIf_eq_nil,
    decide_eq_false_iff_not, not_not, Bool.not_eq_false']
  exact ⟨fun h => ⟨h.1.2.1, h.1.2.2, h.2⟩,
    fun h => ⟨⟨by omega, h.1, h.2.1⟩, h.2.2⟩⟩

theorem emailErrors_fst_eq_nil_iff (email : String) :
    (emailErrors email).1 = [] ↔
      jsIsEmail email = true ∧
        (sanitizedEmailToString (normalizeEmail email)).length ≤ 255 := by
  simp only [emailErrors, List.append_eq_nil, errIf_eq_nil,
    decide_eq_false_iff_not, not_lt, Bool.not_eq_false']

theorem messageErrors_fst_eq_nil_iff (message : String) :
    (messageErrors message).1 = [] ↔
      10 ≤ message.length ∧ message.length ≤ 1000 := by
  simp only [messageErrors, List.append_eq_nil, errIf_eq_nil,
    decide_eq_false_iff_not, not_not]
  constructor
  · rintro ⟨_, h1, h2⟩
    exact ⟨h1, h2⟩
  · rintro ⟨h1, h2⟩
    exact ⟨by omega, h1, h2⟩

theorem validateInput_fst_eq_nil_iff (p : Payload) :
    (validateInput p).1 = [] ↔
      nameErrors p.name = [] ∧ (emailErrors p.email).1 = [] ∧
        (messageErrors p.message).1 = [] := by
  simp [validateInput, List.append_eq_nil]

/-! ### Helper lemmas: the submit handler -/

/-- The record appended by a successful `POST /api/submit`. -/
def mkRecord (st : ServerState) (p : Payload) (reqIp : Option String)
    (now : Nat) : SubmissionRecord :=
  { _id := demoId st.submissionCounter,
    name := p.name,
    email := normalizeEmail p.email,
    message := jsTrim p.message,
    ipAddress := reqIp.getD "unknown",
    createdAt := now }

theorem postSubmit_valid (st : ServerState) (p : Payload) (reqIp : Option String)
    (now : Nat) (h : (validateInput p).1 = []) :
    postSubmit st p reqIp now =
      ({ submissions := st.submissions ++ [mkRecord st p reqIp now],
         submissionCounter := st.submissionCounter + 1 },
       { status := 201, success := true, message := "Data saved successfully",
         errors := [], id := some (demoId st.submissionCounter) }) := by
  have hempty : (validateInput p).1.isEmpty = true := by simp [h]
  simp only [postSubmit, hempty, if_true]
  rfl

theorem postSubmit_invalid (st : ServerState) (p : Payload) (reqIp : Option String)
    (now : Nat) (h : (validateInput p).1 ≠ []) :
    postSubmit st p reqIp now =
      (st, { status := 400, success := false, message := "Validation failed",
             errors := (validateInput p).1, id := none }) := by
  have hne : ¬ ((validateInput p).1.isEmpty = true) := by
    simpa [List.isEmpty_iff] using h
  simp only [postSubmit, if_neg hne]

theorem valid_of_status_201 (st : ServerState) (p : Payload) (reqIp : Option String)
    (now : Nat) (h : (postSubmit st p reqIp now).2.status = 201) :
    (validateInput p).1 = [] := by
  by_contra hne
  rw [postSubmit_invalid st p reqIp now hne] at h
  simp at h

/-! ### Helper lemmas: trimming and character classes -/

theorem length_dropWhile_le {α : Type} (p : α → Bool) (l : List α) :
    (l.dropWhile p).length ≤ l.length := by
  induction l with
  | nil => simp
  | cons c cs ih =>
    by_cases h : p c
    · simp only [List.dropWhile, h, List.length_cons]
      omega
    · simp [List.dropWhile, h]

theorem jsTrim_length_le (s : String) : (jsTrim s).length ≤ s.length := by
  have h1 := length_dropWhile_le isJsWhitespace s.data
  have h2 := length_dropWhile_le isJsWhitespace
    (s.data.dropWhile isJsWhitespace).reverse
  simp only [jsTrim, String.length, List.length_reverse] at *
  omega

theorem jsLowerChar_not_upper (c : Char) :
    isUpperAscii (jsLowerChar c) = false := by
  unfold jsLowerChar
  by_cases hu : isUpperAscii c = true
  · rw [if_pos hu]
    simp only [isUpperAscii, decide_eq_true_eq] at hu
    simp only [isUpperAscii, decide_eq_false_iff_not]
    rw [toNat_ofNat_of_lt (by omega)]
    omega
  · rw [if_neg hu]
    simpa using hu

theorem no_upper_of_mem_lowerChars {l : List Char} {c : Char}
    (h : c ∈ lowerChars l) : isUpperAscii c = false := by
  obtain ⟨c0, _, rfl⟩ := List.mem_map.mp h
  exact jsLowerChar_not_upper c0

theorem no_upper_concat {u d : List Char} {c : Char}
    (hd : ∀ x ∈ d, isUpperAscii x = false)
    (hc : c ∈ lowerChars u ++ Char.ofNat 64 :: d) :
    isUpperAscii c = false := by
  rcases List.mem_append.mp hc with h | h
  · exact no_upper_of_mem_lowerChars h
  · rcases List.mem_cons.mp h with rfl | h
    · decide
    · exact hd _ h

/-- Every branch of `normalizeEmail` ends by lowercasing the user part and
emits a lowercased (or literal lowercase) domain, so no uppercase ASCII
letter survives in a string result. -/
theorem normalizeEmail_no_upper {e s : String}
    (h : normalizeEmail e = some s) :
    ∀ c ∈ s.data, isUpperAscii c = false := by
  intro c hc
  simp only [normalizeEmail] at h
  split at h
  · -- gmail branch
    split at h
    · exact absurd h (by simp)
    · injection h with h2
      subst h2
      refine no_upper_concat ?_ hc
      intro x hx
      fin_cases hx <;> decide
  · split at h
    · -- icloud branch
      injection h with h2
      subst h2
      exact no_upper_concat (fun x hx => no_upper_of_mem_lowerChars hx) hc
    · split at h
      · -- outlook branch
        injection h with h2
        subst h2
        exact no_upper_concat (fun x hx => no_upper_of_mem_lowerChars hx) hc
      · split at h
        · -- yahoo branch
          injection h with h2
          subst h2
          exact no_upper_concat (fun x hx => no_upper_of_mem_lowerChars hx) hc
        · -- default branch
          injection h with h2
          subst h2
          exact no_upper_concat (fun x hx => no_upper_of_mem_lowerChars hx) hc

/-! ### Injectivity of the decimal rendering used by `demoId` -/

/-- Reference decimal rendering, most significant digit first. -/
def natDigits (n : Nat) : List Char :=
  if _h : n < 10 then [Nat.digitChar n]
  else natDigits (n / 10) ++ [Nat.digitChar (n % 10)]
termination_by n
decreasing_by
  simp_wf
  omega

theorem toDigitsCore_eq :
    ∀ (fuel n : Nat) (acc : List Char), n < fuel →
      Nat.toDigitsCore 10 fuel n acc = natDigits n ++ acc := by
  intro fuel
  induction fuel with
  | zero => intro n acc h; omega
  | succ f ih =>
    intro n acc h
    have hstep : Nat.toDigitsCore 10 (f + 1) n acc =
        if n / 10 = 0 then Nat.digitChar (n % 10) :: acc
        else Nat.toDigitsCore 10 f (n / 10) (Nat.digitChar (n % 10) :: acc) :=
      rfl
    by_cases h10 : n / 10 = 0
    · have hn : n < 10 := by omega
      have hm : n % 10 = n := Nat.mod_eq_of_lt hn
      rw [hstep, if_pos h10, natDigits, dif_pos hn, hm]
      rfl
    · have hn : ¬ (n < 10) := by omega
      rw [hstep, if_neg h10, ih (n / 10) _ (by omega)]
      conv_rhs => rw [natDigits]
      rw [dif_neg hn, List.append_assoc]
      rfl

theorem natRepr_eq (n : Nat) : Nat.repr n = (natDigits n).asString := by
  unfold Nat.repr Nat.toDigits
  rw [toDigitsCore_eq (n + 1) n [] (Nat.lt_succ_self n), List.append_nil]

/-- Decode one decimal digit character. -/
def digitVal (c : Char) : Nat := c.toNat - 48

/-- Decode a most-significant-first decimal digit string. -/
def valOfDigits (l : List Char) : Nat :=
  l.foldl (fun a c => 10 * a + digitVal c) 0

theorem digitVal_digitChar {d : Nat} (h : d < 10) :
    digitVal (Nat.digitChar d) = d := by
  interval_cases d <;> rfl

theorem valOfDigits_append_digit (l : List Char) (c : Char) :
    valOfDigits (l ++ [c]) = 10 * valOfDigits l + digitVal c := by
  simp [valOfDigits, List.foldl_append]

theorem valOfDigits_natDigits (n : Nat) : valOfDigits (natDigits n) = n := by
  induction n using Nat.strong_induction_on with
  | _ n ih =>
    by_cases h : n < 10
    · rw [natDigits, dif_pos h]
      simp [valOfDigits, digitVal_digitChar h]
    · rw [natDigits, dif_neg h, valOfDigits_append_digit,
        ih (n / 10) (by omega), digitVal_digitChar (by omega)]
      omega

theorem natRepr_data_injective {a b : Nat}
    (h : (Nat.repr a).data = (Nat.repr b).data) : a = b := by
  have ha := natRepr_eq a
  have hb := natRepr_eq b
  have h1 : natDigits a = natDigits b := by
    have h2 : ((natDigits a).asString).data = ((natDigits b).asString).data := by
      rw [← ha, ← hb]; exact h
    simpa [List.asString] using h2
  have h3 := congrArg valOfDigits h1
  rwa [valOfDigits_natDigits, valOfDigits_natDigits] at h3

theorem demoId_injective {a b : Nat} (h : demoId a = demoId b) : a = b := by
  apply natRepr_data_injective
  have hdata := congrArg String.data h
  simp only [demoId, String.data_append] at hdata
  exact List.append_cancel_left hdata

/-! ### The id-uniqueness invariant of the Store -/

/-- Every stored record's id was minted from an earlier value of the
counter. -/
def idsWellFormed (st : ServerState) : Prop :=
  ∀ r ∈ st.submissions, ∃ k, k < st.submissionCounter ∧ r._id = demoId k

theorem idsWellFormed_initial : idsWellFormed initialState := by
  intro r hr
  simp [initialState] at hr

/-! ### Helper lemmas: the listing handler -/

theorem subCmp_trans (a b c : SubItem) (h1 : subCmp a b = true)
    (h2 : subCmp b c = true) : subCmp a c = true := by
  simp only [subCmp, decide_eq_true_eq] at *
  omega

theorem subCmp_total (a b : SubItem) : (subCmp a b || subCmp b a) = true := by
  simp only [subCmp, Bool.or_eq_true, decide_eq_true_eq]
  omega

theorem mem_of_mem_data {st : ServerState} {it : SubItem}
    (h : it ∈ (getSubmissions st).2.data) :
    ∃ r ∈ st.submissions, it = toSubItem r := by
  simp only [getSubmissions] at h
  have h1 := (List.take_sublist 50 _).mem h
  have h2 := ((st.submissions.map toSubItem).mergeSort_perm subCmp).mem_iff.mp h1
  obtain ⟨r, hr, hit⟩ := List.mem_map.mp h2
  exact ⟨r, hr, hit.symm⟩

theorem data_sorted_desc (st : ServerState) :
    List.Pairwise (fun a b : SubItem => b.createdAt ≤ a.createdAt)
      (getSubmissions st).2.data := by
  have hs := List.sorted_mergeSort subCmp_trans subCmp_total
    (st.submissions.map toSubItem)
  have ht := List.Pairwise.sublist (List.take_sublist 50
    ((st.submissions.map toSubItem).mergeSort subCmp)) hs
  refine ht.imp ?_
  intro a b hab
  simpa [subCmp] using hab

theorem mergeSort_pair (a b : SubItem) :
    [a, b].mergeSort subCmp = if subCmp a b then [a, b] else [b, a] := by
  simp only [List.mergeSort, List.merge]
  by_cases h : subCmp a b <;> simp [h, List.merge]

/-! ### Path lemmas for the error list -/

theorem path_of_mem_nameErrors {name : String} {e : FieldError}
    (h : e ∈ nameErrors name) : e.path = "name" := by
  simp only [nameErrors, List.mem_append] at h
  rcases h with (h | h) | h <;> exact path_of_mem_errIf h

theorem path_of_mem_emailErrors {email : String} {e : FieldError}
    (h : e ∈ (emailErrors email).1) : e.path = "email" := by
  simp only [emailErrors, List.mem_append] at h
  rcases h with h | h <;> exact path_of_mem_errIf h

theorem path_of_mem_messageErrors {message : String} {e : FieldError}
    (h : e ∈ (messageErrors message).1) : e.path = "message" := by
  simp only [messageErrors, List.mem_append] at h
  rcases h with h | h <;> exact path_of_mem_errIf h

theorem mem_validateInput_of_name {p : Payload} {e : FieldError}
    (h : e ∈ nameErrors p.name) : e ∈ (validateInput p).1 := by
  simp only [validateInput, List.mem_append]
  exact Or.inl (Or.inl h)

theorem mem_validateInput_of_email {p : Payload} {e : FieldError}
    (h : e ∈ (emailErrors p.email).1) : e ∈ (validateInput p).1 := by
  simp only [validateInput, List.mem_append]
  exact Or.inl (Or.inr h)

theorem mem_validateInput_of_message {p : Payload} {e : FieldError}
    (h : e ∈ (messageErrors p.message).1) : e ∈ (validateInput p).1 := by
  simp only [validateInput, List.mem_append]
  exact Or.inr h

/-! ### Concrete fixtures used by witnesses and counterexamples -/

/-- The example payload of the specification. -/
def samplePayload : Payload :=
  ⟨"Jane Doe", "JANE@Example.com", "Hello, this is a test message."⟩

/-- A payload whose raw message has exactly 10 characters but trims to 5. -/
def shortMsgPayload : Payload :=
  ⟨"Jane Doe", "jane@example.com", "  hello   "⟩

/-- A payload whose name has 3 characters raw but trims to 1. -/
def spacedNamePayload : Payload :=
  ⟨" A ", "jane@example.com", "Hello, this is a test message."⟩

/-- A payload with a hyphenated name. -/
def hyphenNamePayload : Payload :=
  ⟨"Anne-Marie", "anne@example.com", "Hello, this is a test message."⟩

/-- A payload violating all three field rules. -/
def invalidPayload : Payload := ⟨"A", "not-an-email", "short"⟩

/-- A payload whose email local part starts with U+2000 (EN QUAD), a
Unicode whitespace character admitted by `isEmail`'s UTF-8 local parts. -/
def utf8WsPayload : Payload :=
  ⟨"Jane Doe", "\u2000A@Example.com", "Hello, this is a test message."⟩

/-- A stored record with `createdAt = 5`. -/
def recA : SubmissionRecord :=
  ⟨"demo-1", "Aa", some "a@example.com", "hello there you", "203.0.113.1", 5⟩

/-- A second stored record with the same `createdAt` as `recA`. -/
def recB : SubmissionRecord :=
  ⟨"demo-2", "Bb", some "b@example.com", "hello there you", "203.0.113.2", 5⟩

/-! ### The claims -/

/-- Claim C1, counterexample: `shortMsgPayload` has a 10-character raw
message, so validation passes and the POST answers 201, but the persisted
record stores the trimmed message `"hello"`, whose trimmed length 5 is
outside [10,1000].  The length rule therefore does not hold of the stored
message after trimming. -/
theorem C1_counterexample :
    (postSubmit initialState shortMsgPayload (some "203.0.113.9") 1000).2.status = 201 ∧
    ((postSubmit initialState shortMsgPayload
        (some "203.0.113.9") 1000).1.submissions.map
      fun r => (jsTrim r.message).length) = [5] ∧ ¬ (10 ≤ 5) := by
  exact ⟨by decide, by decide, by decide⟩

/-- Claim C1, amended: every record persisted by `POST /api/submit` stores
the trimmed message, and the [10,1000] length check was applied to the raw
message before trimming; hence the stored message has length at most 1000,
but its trimmed length can fall below 10. -/
theorem C1_message_stored :
    ∀ (st : ServerState) (p : Payload) (reqIp : Option String) (now : Nat),
      (postSubmit st p reqIp now).2.status = 201 →
      ∃ r, (postSubmit st p reqIp now).1.submissions = st.submissions ++ [r] ∧
        r.message = jsTrim p.message ∧
        10 ≤ p.message.length ∧ p.message.length ≤ 1000 ∧
        r.message.length ≤ 1000 := by
  intro st p reqIp now h201
  have hvalid := valid_of_status_201 st p reqIp now h201
  have hmsg := ((validateInput_fst_eq_nil_iff p).mp hvalid).2.2
  have hbounds := (messageErrors_fst_eq_nil_iff p.message).mp hmsg
  rw [postSubmit_valid st p reqIp now hvalid]
  refine ⟨mkRecord st p reqIp now, rfl, rfl, hbounds.1, hbounds.2, ?_⟩
  calc (mkRecord st p reqIp now).message.length
      = (jsTrim p.message).length := rfl
    _ ≤ p.message.length := jsTrim_length_le _
    _ ≤ 1000 := hbounds.2

/-- Witness for C1 at the specification's sample payload. -/
theorem C1_witness :
    (postSubmit initialState samplePayload (some "203.0.113.9") 0).2.status = 201 ∧
    ∃ r, (postSubmit initialState samplePayload
        (some "203.0.113.9") 0).1.submissions = initialState.submissions ++ [r] ∧
      r.message = jsTrim samplePayload.message ∧
      10 ≤ samplePayload.message.length ∧ samplePayload.message.length ≤ 1000 ∧
      r.message.length ≤ 1000 :=
  ⟨by decide,
   C1_message_stored initialState samplePayload (some "203.0.113.9") 0 (by decide)⟩

/-- Claim C2, counterexample: the name `" A "` trims to length 1, outside
[2,100], yet the validator accepts it and the POST answers 201: the name
chain has no trim sanitizer, so the length rule sees the raw value. -/
theorem C2_counterexample :
    nameErrors " A " = [] ∧ (jsTrim " A ").length = 1 ∧
    (postSubmit initialState spacedNamePayload (some "203.0.113.9") 0).2.status
      = 201 := by
  exact ⟨by decide, by decide, by decide⟩

/-- Claim C2, amended: the Validator accepts a name iff its raw (untrimmed)
length is in [2,100] and it matches the letters-and-whitespace pattern; in
particular any payload whose name contains a character that is neither a
letter nor whitespace (digit, punctuation, symbol) is answered 400 with an
error naming the name field. -/
theorem C2_name_rule :
    (∀ name : String,
      nameErrors name = [] ↔
        2 ≤ name.length ∧ name.length ≤ 100 ∧ nameMatches name = true) ∧
    ∀ (st : ServerState) (p : Payload) (reqIp : Option String) (now : Nat)
      (c : Char), c ∈ p.name.data → isAsciiLetter c = false →
      isJsWhitespace c = false →
      (postSubmit st p reqIp now).2.status = 400 ∧
      ∃ e ∈ (postSubmit st p reqIp now).2.errors, e.path = "name" := by
  refine ⟨nameErrors_eq_nil_iff, ?_⟩
  intro st p reqIp now c hc hl hw
  have hall : p.name.data.all
      (fun c => isAsciiLetter c || isJsWhitespace c) = false := by
    by_contra h
    have h2 : p.name.data.all (fun c => isAsciiLetter c || isJsWhitespace c)
        = true := by
      revert h
      cases p.name.data.all (fun c => isAsciiLetter c || isJsWhitespace c) <;>
        simp
    have h3 := List.all_eq_true.mp h2 c hc
    simp [hl, hw] at h3
  have hmatch : nameMatches p.name = false := by
    simp [nameMatches, hall]
  have hname : nameErrors p.name ≠ [] := by
    intro h
    have h4 := ((nameErrors_eq_nil_iff p.name).mp h).2.2
    rw [hmatch] at h4
    exact Bool.false_ne_true h4
  have herr : (validateInput p).1 ≠ [] := by
    intro h
    exact hname ((validateInput_fst_eq_nil_iff p).mp h).1
  rw [postSubmit_invalid st p reqIp now herr]
  refine ⟨rfl, ⟨"name", "Name can only contain letters and spaces"⟩, ?_, rfl⟩
  apply mem_validateInput_of_name
  simp [nameErrors, errIf, hmatch]

/-- Witness for C2 at the hyphenated name of the specification's open
question. -/
theorem C2_witness :
    (postSubmit initialState hyphenNamePayload (some "203.0.113.9") 0).2.status
      = 400 ∧
    ∃ e ∈ (postSubmit initialState hyphenNamePayload
        (some "203.0.113.9") 0).2.errors, e.path = "name" :=
  C2_name_rule.2 initialState hyphenNamePayload (some "203.0.113.9") 0
    (Char.ofNat 45) (by decide) (by decide) (by decide)

/-- Claim C3, counterexample: with two records sharing one `createdAt`, the
listing keeps insertion order (the sort is stable), so after appending
`recA` then `recB` the response lists `recA` first, not `recB`. -/
theorem C3_counterexample :
    (getSubmissions ⟨[recA, recB], 3⟩).2.data
      = [toSubItem recA, toSubItem recB] ∧
    toSubItem recA ≠ toSubItem recB := by
  constructor
  · simp [getSubmissions, List.mergeSort, List.merge, subCmp, recA, recB,
      toSubItem]
  · decide

/-- Claim C3, amended: the listing is ordered by `createdAt` descending;
ties keep insertion order (stable sort).  For a store holding R1 then R2,
R2 is listed first exactly when its `createdAt` is strictly greater. -/
theorem C3_ordering :
    (∀ st : ServerState,
      List.Pairwise (fun a b : SubItem => b.createdAt ≤ a.createdAt)
        (getSubmissions st).2.data) ∧
    ∀ (r1 r2 : SubmissionRecord) (c : Nat),
      (getSubmissions ⟨[r1, r2], c⟩).2.data =
        if r1.createdAt < r2.createdAt then [toSubItem r2, toSubItem r1]
        else [toSubItem r1, toSubItem r2] := by
  refine ⟨data_sorted_desc, ?_⟩
  intro r1 r2 c
  show ([toSubItem r1, toSubItem r2].mergeSort subCmp).take 50 = _
  rw [mergeSort_pair]
  by_cases h : r1.createdAt < r2.createdAt
  · have hc : subCmp (toSubItem r1) (toSubItem r2) = false := by
      simp only [subCmp, toSubItem, decide_eq_false_iff_not]
      omega
    rw [if_pos h, hc]
    rfl
  · have hc : subCmp (toSubItem r1) (toSubItem r2) = true := by
      simp only [subCmp, toSubItem, decide_eq_true_eq]
      omega
    rw [if_neg h, hc]
    rfl

/-- Claim C4: no object in the `data` array of a `GET /api/submissions`
response carries an `ipAddress` key: the handler projects each record to
five fields before responding. -/
theorem C4_no_ipAddress :
    ∀ (st : ServerState) (o : List (String × JValue)),
      o ∈ responseJsonData (getSubmissions st).2 →
      "ipAddress" ∉ o.map Prod.fst := by
  intro st o ho
  simp only [responseJsonData, List.mem_map] at ho
  obtain ⟨it, _, rfl⟩ := ho
  simp [subItemJson]

/-- Witness for C4 on a one-record store. -/
theorem C4_witness :
    "ipAddress" ∉ ((subItemJson (toSubItem recA)).map Prod.fst) :=
  C4_no_ipAddress ⟨[recA], 2⟩ (subItemJson (toSubItem recA)) (by
    simp [responseJsonData, getSubmissions, List.mergeSort])

/-- Claim C5: `GET /api/submissions` returns at most 50 items, and exactly
50 once the store holds 60 records (`slice(0, 50)`). -/
theorem C5_limit :
    ∀ st : ServerState,
      (getSubmissions st).2.data.length ≤ 50 ∧
      (st.submissions.length = 60 →
        (getSubmissions st).2.data.length = 50) := by
  intro st
  constructor
  · show (((st.submissions.map toSubItem).mergeSort subCmp).take 50).length ≤ 50
    rw [List.length_take]
    omega
  · intro h60
    show (((st.submissions.map toSubItem).mergeSort subCmp).take 50).length = 50
    rw [List.length_take, List.length_mergeSort, List.length_map, h60]
    rfl

/-- Witness for C5 on a 60-record store. -/
theorem C5_witness :
    ((⟨List.replicate 60 recA, 61⟩ : ServerState).submissions.length = 60) ∧
    (getSubmissions ⟨List.replicate 60 recA, 61⟩).2.data.length = 50 :=
  ⟨by simp, (C5_limit ⟨List.replicate 60 recA, 61⟩).2 (by simp)⟩

/-- Claim C6: any payload violating at least one validation rule is answered
400 with success false, message "Validation failed", the non-empty error
array, and an unchanged store; each violated field contributes an error
entry naming it. -/
theorem C6_validation_failure :
    ∀ (st : ServerState) (p : Payload) (reqIp : Option String) (now : Nat),
      (validateInput p).1 ≠ [] →
      postSubmit st p reqIp now =
        (st, { status := 400, success := false, message := "Validation failed",
               errors := (validateInput p).1, id := none }) ∧
      (postSubmit st p reqIp now).2.errors ≠ [] ∧
      (nameErrors p.name ≠ [] →
        ∃ e ∈ (postSubmit st p reqIp now).2.errors, e.path = "name") ∧
      ((emailErrors p.email).1 ≠ [] →
        ∃ e ∈ (postSubmit st p reqIp now).2.errors, e.path = "email") ∧
      ((messageErrors p.message).1 ≠ [] →
        ∃ e ∈ (postSubmit st p reqIp now).2.errors, e.path = "message") := by
  intro st p reqIp now herr
  have hpost := postSubmit_invalid st p reqIp now herr
  rw [hpost]
  refine ⟨rfl, herr, ?_, ?_, ?_⟩
  · intro hn
    obtain ⟨e, he⟩ := List.exists_mem_of_ne_nil _ hn
    exact ⟨e, mem_validateInput_of_name he, path_of_mem_nameErrors he⟩
  · intro hn
    obtain ⟨e, he⟩ := List.exists_mem_of_ne_nil _ hn
    exact ⟨e, mem_validateInput_of_email he, path_of_mem_emailErrors he⟩
  · intro hn
    obtain ⟨e, he⟩ := List.exists_mem_of_ne_nil _ hn
    exact ⟨e, mem_validateInput_of_message he, path_of_mem_messageErrors he⟩

/-- Witness for C6 at a payload violating every rule. -/
theorem C6_witness :
    postSubmit initialState invalidPayload (some "203.0.113.9") 0 =
      (initialState,
       { status := 400, success := false, message := "Validation failed",
         errors := (validateInput invalidPayload).1, id := none }) ∧
    ∃ e ∈ (postSubmit initialState invalidPayload
        (some "203.0.113.9") 0).2.errors, e.path = "name" :=
  ⟨(C6_validation_failure initialState invalidPayload (some "203.0.113.9") 0
      (by decide)).1,
   (C6_validation_failure initialState invalidPayload (some "203.0.113.9") 0
      (by decide)).2.2.1 (by decide)⟩

/-- Claim C7: on a store whose ids were all minted by the counter, a valid
payload is answered 201 with the id `demo-${submissionCounter}`, which no
stored record carries; the invariant is preserved and stored ids stay
pairwise distinct. -/
theorem C7_fresh_id :
    ∀ (st : ServerState) (p : Payload) (reqIp : Option String) (now : Nat),
      idsWellFormed st → (validateInput p).1 = [] →
      (postSubmit st p reqIp now).2.status = 201 ∧
      (postSubmit st p reqIp now).2.id = some (demoId st.submissionCounter) ∧
      (∀ r ∈ st.submissions, r._id ≠ demoId st.submissionCounter) ∧
      idsWellFormed (postSubmit st p reqIp now).1 ∧
      ((st.submissions.map fun r => r._id).Nodup →
        ((postSubmit st p reqIp now).1.submissions.map fun r => r._id).Nodup)
    := by
  intro st p reqIp now hwf hvalid
  have hfresh : ∀ r ∈ st.submissions, r._id ≠ demoId st.submissionCounter := by
    intro r hr heq
    obtain ⟨k, hk, hid⟩ := hwf r hr
    rw [hid] at heq
    have := demoId_injective heq
    omega
  rw [postSubmit_valid st p reqIp now hvalid]
  refine ⟨rfl, rfl, hfresh, ?_, ?_⟩
  · intro r hr
    simp only [List.mem_append, List.mem_singleton] at hr
    rcases hr with hr | rfl
    · obtain ⟨k, hk, hid⟩ := hwf r hr
      refine ⟨k, ?_, hid⟩
      show k < st.submissionCounter + 1
      omega
    · refine ⟨st.submissionCounter, ?_, rfl⟩
      show st.submissionCounter < st.submissionCounter + 1
      omega
  · intro hnd
    show ((st.submissions ++ [mkRecord st p reqIp now]).map
      fun r => r._id).Nodup
    rw [List.map_append]
    refine List.Nodup.append hnd (by simp) ?_
    intro x hx hmem
    simp only [List.map_cons, List.map_nil, List.mem_singleton] at hmem
    obtain ⟨r, hr, hid⟩ := List.mem_map.mp hx
    subst hmem
    exact hfresh r hr hid

/-- Witness for C7 from the initial state. -/
theorem C7_witness :
    (postSubmit initialState samplePayload (some "203.0.113.9") 0).2.status
      = 201 ∧
    (postSubmit initialState samplePayload (some "203.0.113.9") 0).2.id
      = some (demoId 1) ∧
    idsWellFormed (postSubmit initialState samplePayload
      (some "203.0.113.9") 0).1 := by
  have h := C7_fresh_id initialState samplePayload (some "203.0.113.9") 0
    idsWellFormed_initial (by decide)
  exact ⟨h.1, h.2.1, h.2.2.2.1⟩

/-- Claim C8, counterexample: neither health body matches the claimed shape:
the demo body has no `database_status` key (its key is `database`, with the
constant `'demo-mode (in-memory)'`, not `"available"`), and the MongoDB
variant's body has no `submissions_count` key at all. -/
theorem C8_counterexample :
    "database_status" ∉
      ((healthHandler initialState "2026-10-11T00:00:00.000Z").2.map Prod.fst) ∧
    "submissions_count" ∉
      ((mongoHealthHandler 1 "2026-10-11T00:00:00.000Z").2.map Prod.fst) := by
  exact ⟨by decide, by decide⟩

/-- Claim C8, amended: `GET /api/health` always answers 200.  The demo body
reports status healthy, the current timestamp, a `database` field fixed to
`'demo-mode (in-memory)'`, and `submissions_count` equal to the record
count; the MongoDB variant reports `database` as connected/disconnected by
`readyState` and carries no count field. -/
theorem C8_health :
    (∀ (st : ServerState) (nowIso : String),
      (healthHandler st nowIso).1 = 200 ∧
      (healthHandler st nowIso).2.lookup "status"
        = some (JValue.str "healthy") ∧
      (healthHandler st nowIso).2.lookup "timestamp"
        = some (JValue.str nowIso) ∧
      (healthHandler st nowIso).2.lookup "database"
        = some (JValue.str "demo-mode (in-memory)") ∧
      (healthHandler st nowIso).2.lookup "submissions_count"
        = some (JValue.num st.submissions.length)) ∧
    ∀ (readyState : Nat) (nowIso : String),
      (mongoHealthHandler readyState nowIso).1 = 200 ∧
      (mongoHealthHandler readyState nowIso).2.lookup "database"
        = some (JValue.str
            (if readyState = 1 then "connected" else "disconnected")) ∧
      "submissions_count" ∉
        ((mongoHealthHandler readyState nowIso).2.map Prod.fst) := by
  constructor
  · intro st nowIso
    exact ⟨rfl, rfl, rfl, rfl, rfl⟩
  · intro readyState nowIso
    refine ⟨rfl, rfl, ?_⟩
    simp [mongoHealthHandler]

/-- Claim C9, counterexample: the payload `utf8WsPayload`, whose email local
part starts with U+2000, passes `isEmail` (UTF-8 local parts admit Unicode
whitespace) and is answered 201, but the persisted email
`"\u2000a@example.com"` still carries its surrounding whitespace: trimming
changes it, so the stored email is not "lowercased with surrounding
whitespace removed". -/
theorem C9_counterexample :
    (postSubmit initialState utf8WsPayload (some "203.0.113.9") 0).2.status
      = 201 ∧
    ((postSubmit initialState utf8WsPayload
        (some "203.0.113.9") 0).1.submissions.map fun r => r.email)
      = [some "\u2000a@example.com"] ∧
    jsTrim "\u2000a@example.com" ≠ "\u2000a@example.com" := by
  exact ⟨by decide, by decide, by decide⟩

/-- Claim C9, amended: the sample payload is answered 201 and the subsequent
listing shows the normalized email `jane@example.com`; in general the
stored email is exactly the library's `normalizeEmail` output (the address
lowercased with provider-specific canonicalization, or the boolean false
when a gmail local part normalizes to empty), and whenever it is a string
it contains no uppercase ASCII letter and has length at most 255.  It need
not be free of surrounding whitespace, since `isEmail`'s UTF-8 local parts
admit Unicode whitespace characters. -/
theorem C9_email_normalization :
    ((postSubmit initialState samplePayload (some "203.0.113.9") 0).2.status
        = 201 ∧
      ((getSubmissions (postSubmit initialState samplePayload
          (some "203.0.113.9") 0).1).2.data.map fun it => it.email)
        = [some "jane@example.com"]) ∧
    ∀ (st : ServerState) (p : Payload) (reqIp : Option String) (now : Nat),
      (postSubmit st p reqIp now).2.status = 201 →
      ∃ r, (postSubmit st p reqIp now).1.submissions = st.submissions ++ [r] ∧
        r.email = normalizeEmail p.email ∧
        ∀ s, r.email = some s →
          s.length ≤ 255 ∧ ∀ c ∈ s.data, isUpperAscii c = false := by
  constructor
  · constructor
    · decide
    · rw [postSubmit_valid _ _ _ _ (by decide)]
      simp only [getSubmissions, initialState, mkRecord]
      simp [List.mergeSort, toSubItem]
      decide
  · intro st p reqIp now h201
    have hvalid := valid_of_status_201 st p reqIp now h201
    have hemail := ((validateInput_fst_eq_nil_iff p).mp hvalid).2.1
    have hdecomp := (emailErrors_fst_eq_nil_iff p.email).mp hemail
    rw [postSubmit_valid st p reqIp now hvalid]
    refine ⟨mkRecord st p reqIp now, rfl, rfl, ?_⟩
    intro s hs
    have hs2 : normalizeEmail p.email = some s := hs
    have hlen := hdecomp.2
    rw [hs2] at hlen
    exact ⟨hlen, normalizeEmail_no_upper hs2⟩

/-- Witness for C9's general clause at the sample payload. -/
theorem C9_witness :
    ∃ r, (postSubmit initialState samplePayload
        (some "203.0.113.9") 0).1.submissions
        = initialState.submissions ++ [r] ∧
      r.email = normalizeEmail samplePayload.email ∧
      ∀ s, r.email = some s →
        s.length ≤ 255 ∧ ∀ c ∈ s.data, isUpperAscii c = false :=
  C9_email_normalization.2 initialState samplePayload (some "203.0.113.9") 0
    (by decide)

/-- Claim C10: every object of a demo-mode listing response has exactly the
five keys `_id`, `name`, `email`, `message`, `createdAt`, in that order,
and producing the response leaves the server state (submissions list and
counter) unchanged. -/
theorem C10_projection :
    ∀ st : ServerState,
      (getSubmissions st).1 = st ∧
      ∀ o ∈ responseJsonData (getSubmissions st).2,
        o.map Prod.fst = ["_id", "name", "email", "message", "createdAt"] := by
  intro st
  refine ⟨rfl, ?_⟩
  intro o ho
  simp only [responseJsonData, List.mem_map] at ho
  obtain ⟨it, _, rfl⟩ := ho
  rfl

/-- Witness for C10 on a one-record store. -/
theorem C10_witness :
    (subItemJson (toSubItem recB)).map Prod.fst
      = ["_id", "name", "email", "message", "createdAt"] :=
  (C10_projection ⟨[recB], 2⟩).2 (subItemJson (toSubItem recB)) (by
    simp [responseJsonData, getSubmissions, List.mergeSort])

end FormApp
